import Mathlib

/-!
Verification of the bank-statement-to-voucher generator (src/main.py).

The development shallowly embeds the core pipeline of `main.py`:
CSV column resolution and row normalization (`parse_csv`), keyword
classification (`map_entry_to_accounts`), voucher construction
(`build_vouchers`), the multi-voucher page layout of
`render_vouchers_to_pdf`, and the per-voucher table geometry of
`draw_voucher`.  Python floats are modelled by `ℚ` (the geometry and
amount logic uses only field arithmetic, comparison with zero and
absolute value); Python `datetime` objects are modelled by an opaque
calendar-date record; external library parsers (`datetime.strptime`,
`pd.to_datetime`, `pd.to_numeric`) are abstracted as function
parameters, since only their success or failure matters to the
control flow being verified.
-/

namespace BankVoucher

/-- Predicate `sub_at_front pat hay` is true when `pat` is a prefix of `hay`
(character-by-character comparison). -/
def sub_at_front : List Char → List Char → Bool
  | [], _ => true
  | _ :: _, [] => false
  | p :: ps, h :: hs => p == h && sub_at_front ps hs

/-- Predicate `contains_sub pat hay` is true when `pat` occurs contiguously inside
`hay`: Python's `pat in hay` on strings. -/
def contains_sub (pat : List Char) : List Char → Bool
  | [] => sub_at_front pat []
  | h :: t => sub_at_front pat (h :: t) || contains_sub pat t

/-- Python substring containment `pat in s` (case-sensitive). -/
def str_contains (s pat : String) : Bool :=
  contains_sub pat.data s.data

/-- Python's `str.strip()`: remove leading and trailing whitespace.
(Structural recursion over the character list, so it evaluates inside
the kernel; `String.trim` is defined by well-founded recursion and does
not.) -/
def py_strip (s : String) : String :=
  String.mk
    (((s.data.dropWhile Char.isWhitespace).reverse.dropWhile Char.isWhitespace).reverse)

/-- A mapping rule as loaded from `mapping.yaml`: a YAML dictionary whose
keys `keyword`, `debit_account`, `credit_account` may each be absent
(`rule.get` then returns `None`), modelled by `Option`. -/
structure MappingRule where
  keyword : Option String
  debit_account : Option String
  credit_account : Option String
  deriving DecidableEq, Repr

/-- Function `map_entry_to_accounts` from `src/main.py` (lines 159-166): scan the
rules in order; the first rule whose `keyword` field is truthy (present
and nonempty, Python `if keyword`) and contained in the summary wins;
each absent account side falls back to the caller-supplied default. -/
def map_entry_to_accounts (summary : String) (mapping_rules : List MappingRule)
    (fallback_debit fallback_credit : String) : String × String :=
  match mapping_rules with
  | [] => (fallback_debit, fallback_credit)
  | rule :: rest =>
    match rule.keyword with
    | some keyword =>
      if keyword ≠ "" && str_contains summary keyword then
        (rule.debit_account.getD fallback_debit,
         rule.credit_account.getD fallback_credit)
      else
        map_entry_to_accounts summary rest fallback_debit fallback_credit
    | none => map_entry_to_accounts summary rest fallback_debit fallback_credit

/-- A calendar date, standing for a Python `datetime` value.  The pipeline
only carries dates through unchanged, so no calendar arithmetic is
modelled. -/
structure Date where
  year : Nat
  month : Nat
  day : Nat
  deriving DecidableEq, Repr

/-- A normalized transaction row, the shape of one row of the DataFrame
returned by `parse_csv`: `date` parsed, `summary` a string (`NaN`
already replaced by `""`), `debit`/`credit` numeric with unparseable or
missing cells already coerced to `0`.  `build_vouchers` reads the
amount columns with `row.get(col, 0.0)`, so a physically absent column
is indistinguishable from the value `0` and is modelled as `0`. -/
structure Row where
  date : Date
  summary : String
  debit : ℚ
  credit : ℚ
  deriving DecidableEq, Repr

/-- The `Voucher` dataclass of `src/main.py` (lines 46-53). -/
structure Voucher where
  number : String
  date : Date
  description : String
  debit_account : String
  credit_account : String
  amount : ℚ
  deriving DecidableEq, Repr

/-- Left-pad a string with zeros up to width `w`. -/
def pad_zeros (s : String) (w : Nat) : String :=
  String.mk (List.replicate (w - s.length) '0') ++ s

/-- Python's `f"{n:03d}"`: format an integer zero-padded to (total)
width 3, the sign counting toward the width. -/
def format03d (n : Int) : String :=
  if n < 0 then "-" ++ pad_zeros (toString n.natAbs) 2
  else pad_zeros (toString n) 3

/-- The amount selected by `build_vouchers` for a row (lines 172-176):
start from the debit column; if that is zero, take the credit column. -/
def selected_amount (row : Row) : ℚ :=
  if row.debit = 0 then row.credit else row.debit

/-- The description placed on a voucher (line 184):
`row.get("summary", "").strip() or "银行流水"`. -/
def voucher_description (row : Row) : String :=
  if py_strip row.summary = "" then "银行流水" else py_strip row.summary

/-- The body of the `build_vouchers` loop (lines 171-195): `vouchers` is
the list accumulated so far, `row` the current row.  A row whose
selected amount is zero is skipped (`continue`); otherwise the row is
classified, numbered `start_number + len(vouchers)` and appended with
the absolute value of the selected amount. -/
def build_step (mapping_rules : List MappingRule) (start_number : Int)
    (fallback_debit fallback_credit : String) (vouchers : List Voucher) (row : Row) :
    List Voucher :=
  let amount := row.debit
  let amount := if amount = 0 then row.credit else amount
  if amount = 0 then vouchers
  else
    let accounts :=
      map_entry_to_accounts row.summary mapping_rules fallback_debit fallback_credit
    let description := voucher_description row
    let number := format03d (start_number + vouchers.length)
    vouchers ++ [{ number := number, date := row.date, description := description,
                   debit_account := accounts.1, credit_account := accounts.2,
                   amount := |amount| }]

/-- Function `build_vouchers` from `src/main.py` (lines 169-196): the `for` loop
over the DataFrame rows as a left fold of `build_step` starting from
the empty voucher list. -/
def build_vouchers (df : List Row) (mapping_rules : List MappingRule)
    (start_number : Int) (fallback_debit fallback_credit : String) : List Voucher :=
  df.foldl (build_step mapping_rules start_number fallback_debit fallback_credit) []

/-- The single voucher emitted for a (non-skipped) row when `k` vouchers
have been emitted before it. -/
def mk_voucher (mapping_rules : List MappingRule) (start_number : Int)
    (fallback_debit fallback_credit : String) (row : Row) (k : Nat) : Voucher :=
  let accounts :=
    map_entry_to_accounts row.summary mapping_rules fallback_debit fallback_credit
  { number := format03d (start_number + k), date := row.date,
    description := voucher_description row,
    debit_account := accounts.1, credit_account := accounts.2,
    amount := |selected_amount row| }

/-- Recursive restatement of the `build_vouchers` loop, carrying the
count `k` of vouchers emitted so far (`len(vouchers)` in the source). -/
def build_vouchers_from (mapping_rules : List MappingRule) (start_number : Int)
    (fallback_debit fallback_credit : String) : List Row → Nat → List Voucher
  | [], _ => []
  | row :: rest, k =>
    if selected_amount row = 0 then
      build_vouchers_from mapping_rules start_number fallback_debit fallback_credit rest k
    else
      mk_voucher mapping_rules start_number fallback_debit fallback_credit row k ::
        build_vouchers_from mapping_rules start_number fallback_debit fallback_credit rest (k + 1)

/-- The rows of a table that survive the `build_vouchers` skip test. -/
def emitted_rows (df : List Row) : List Row :=
  df.filter (fun row => !(selected_amount row = 0 : Bool))

/-! ### Column resolution and row normalization (`parse_csv`, lines 97-156) -/

/-- Alias list for the logical `date` column (line 102). -/
def aliases_date : List String := ["日期", "交易日期", "记账日期", "发生日期"]

/-- Alias list for the logical `summary` column (line 103). -/
def aliases_summary : List String := ["摘要", "附言", "用途", "说明"]

/-- Alias list for the logical `debit` column (line 104). -/
def aliases_debit : List String := ["借方金额", "借方", "收入"]

/-- Alias list for the logical `credit` column (line 105). -/
def aliases_credit : List String := ["贷方金额", "贷方", "支出"]

/-- Function `find_column` (lines 108-112): the first alias, in declared order,
that occurs among the (already stripped) header names. -/
def find_column (headers : List String) (possible_names : List String) : Option String :=
  possible_names.find? (fun name => headers.contains name)

/-- The four resolved physical column names, each `none` when no alias of
that logical field occurs in the header. -/
structure ResolvedColumns where
  date_col : Option String
  summary_col : Option String
  debit_col : Option String
  credit_col : Option String
  deriving DecidableEq, Repr

/-- The single fixed message raised for missing required columns
(line 120). -/
def missing_columns_message : String := "CSV 缺少必要的列：日期/摘要/借方或贷方金额"

/-- The column-resolution step of `parse_csv` (lines 99-120): strip the
header names, bind each logical field to the first matching alias, and
fail when date or summary is unresolved or neither amount column is. -/
def resolve_columns (raw_headers : List String) : Except String ResolvedColumns :=
  let headers := raw_headers.map py_strip
  let date_col := find_column headers aliases_date
  let summary_col := find_column headers aliases_summary
  let debit_col := find_column headers aliases_debit
  let credit_col := find_column headers aliases_credit
  if date_col.isNone || summary_col.isNone || (debit_col.isNone && credit_col.isNone) then
    Except.error missing_columns_message
  else
    Except.ok ⟨date_col, summary_col, debit_col, credit_col⟩

/-- One raw CSV row restricted to the four resolved columns; a cell is
`none` when the value is missing (`NaN` in the DataFrame, so also when
the whole column is absent). -/
structure RawRow where
  date : Option String
  summary : Option String
  debit : Option String
  credit : Option String
  deriving DecidableEq, Repr

/-- The fixed date patterns tried in order by `parse_date` (line 137). -/
def date_formats : List String := ["%Y/%m/%d", "%Y-%m-%d", "%Y.%m.%d", "%Y%m%d"]

/-- Function `parse_date` (lines 132-143).  `strptime value fmt` abstracts
`datetime.strptime` (returning `none` where the library raises
`ValueError`) and `pd_to_datetime` abstracts the final best-effort
`pd.to_datetime` fallback.  An empty/missing cell raises `日期为空`; a
CSV cell is never a `datetime` instance, so the `isinstance` branch is
unreachable here.  When every parser fails, `pd.to_datetime` raises:
the concrete library message is abstracted. -/
def parse_date (strptime : String → String → Option Date)
    (pd_to_datetime : String → Option Date) (value : Option String) : Except String Date :=
  match value with
  | none => Except.error "日期为空"
  | some s =>
    match date_formats.findSome? (fun fmt => strptime (py_strip s) fmt) with
    | some d => Except.ok d
    | none =>
      match pd_to_datetime s with
      | some d => Except.ok d
      | none => Except.error "无法解析日期"

/-- The coercion `pd.to_numeric(col, errors="coerce").fillna(0.0)` applied to one cell
(lines 148-151): a missing cell or one the numeric parser rejects
becomes `0`.  `parse_num` abstracts the pandas numeric parser. -/
def to_numeric_coerce (parse_num : String → Option ℚ) (cell : Option String) : ℚ :=
  match cell with
  | none => 0
  | some s => (parse_num s).getD 0

/-- Normalization of one raw row (lines 145-151): the date must parse
(fatal otherwise), the summary falls back to the empty string, the
amounts are coerced. -/
def normalize_row (strptime : String → String → Option Date)
    (pd_to_datetime : String → Option Date) (parse_num : String → Option ℚ)
    (r : RawRow) : Except String Row := do
  let d ← parse_date strptime pd_to_datetime r.date
  Except.ok ⟨d, r.summary.getD "", to_numeric_coerce parse_num r.debit,
             to_numeric_coerce parse_num r.credit⟩

/-- Normalization of the whole table.  The source transforms whole
columns (`df["date"].apply(parse_date)` first, then the summary and
amount columns); since only date parsing can raise and `apply` iterates
rows in order, the first failing date aborts everything, which the
row-wise `mapM` reproduces exactly: no partial table is ever
returned. -/
def normalize_rows (strptime : String → String → Option Date)
    (pd_to_datetime : String → Option Date) (parse_num : String → Option ℚ)
    (rows : List RawRow) : Except String (List Row) :=
  rows.mapM (normalize_row strptime pd_to_datetime parse_num)

/-- The zero filter of `parse_csv` (lines 153-154): keep the rows where
the debit or the credit amount is nonzero. -/
def filter_zero_rows (df : List Row) : List Row :=
  df.filter (fun row => decide (row.debit ≠ 0) || decide (row.credit ≠ 0))

/-- The normalize-filter-build pipeline of `main` (lines 345-346), with
the zero-filter flag of `parse_csv` made explicit. -/
def pipeline (strptime : String → String → Option Date)
    (pd_to_datetime : String → Option Date) (parse_num : String → Option ℚ)
    (raw : List RawRow) (filter_zero : Bool) (mapping_rules : List MappingRule)
    (start_number : Int) (fallback_debit fallback_credit : String) :
    Except String (List Voucher) := do
  let df ← normalize_rows strptime pd_to_datetime parse_num raw
  let df := if filter_zero then filter_zero_rows df else df
  Except.ok (build_vouchers df mapping_rules start_number fallback_debit fallback_credit)

/-! ### Page layout (`render_vouchers_to_pdf`, lines 275-301) -/

/-- Function `mm_to_pt` (lines 16-18) with reportlab's `mm = 72 / 25.4 = 360/127`
points. -/
def mm_to_pt (value : ℚ) : ℚ :=
  value * (360 / 127)

/-- reportlab A4 page width, `210 * mm`. -/
def A4_width : ℚ := mm_to_pt 210

/-- reportlab A4 page height, `297 * mm`. -/
def A4_height : ℚ := mm_to_pt 297

/-- The voucher box height computed at lines 285-287:
`(page_height - 2*margin - spacing*(vouchers_per_page - 1)) / vouchers_per_page`. -/
def voucher_height (page_height margin spacing : ℚ) (vouchers_per_page : Nat) : ℚ :=
  (page_height - 2 * margin - spacing * ((vouchers_per_page : ℚ) - 1)) /
    (vouchers_per_page : ℚ)

/-- The voucher box width computed at line 288: `page_width - 2*margin`. -/
def voucher_width (page_width margin : ℚ) : ℚ :=
  page_width - 2 * margin

/-- One `draw_voucher` call issued by the rendering loop: the 0-based
page it lands on (a page break is a `showPage` call) and the box passed
to `draw_voucher`. -/
structure Placement where
  page : Nat
  x : ℚ
  y : ℚ
  width : ℚ
  height : ℚ
  deriving DecidableEq, Repr

/-- The rendering loop of lines 293-299.  `n` is `len(vouchers)`, `rem`
the number of vouchers still to draw (`n - idx`), `idx` the loop index,
`page`/`y` the current page counter and vertical cursor.  After drawing
voucher `idx`, if `(idx+1) % vouchers_per_page == 0 and idx+1 != n` the
page breaks and the cursor resets to `top`; otherwise the cursor drops
by `hgt + spacing`. -/
def render_go (n vouchers_per_page : Nat) (x w hgt spacing top : ℚ) :
    Nat → Nat → Nat → ℚ → List Placement
  | 0, _, _, _ => []
  | rem + 1, idx, page, y =>
    ⟨page, x, y, w, hgt⟩ ::
      (if (idx + 1) % vouchers_per_page = 0 ∧ idx + 1 ≠ n then
        render_go n vouchers_per_page x w hgt spacing top rem (idx + 1) (page + 1) top
      else
        render_go n vouchers_per_page x w hgt spacing top rem (idx + 1) page
          (y - (hgt + spacing)))

/-- The geometry of `render_vouchers_to_pdf` (lines 275-301) for `n`
vouchers: the box handed to each `draw_voucher` call together with its
page.  The function computes `voucher_height`/`voucher_width` once,
starts at `x = margin`, `y = page_height - margin - voucher_height`,
and runs the drawing loop; no validation of `vouchers_per_page` or of
the computed height is performed anywhere. -/
def render_layout (n : Nat) (vouchers_per_page : Nat)
    (page_width page_height margin spacing : ℚ) : List Placement :=
  let hgt := voucher_height page_height margin spacing vouchers_per_page
  let w := voucher_width page_width margin
  render_go n vouchers_per_page margin w hgt spacing
    (page_height - margin - hgt) n 0 0 (page_height - margin - hgt)

/-! ### Voucher table geometry (`draw_voucher`, lines 199-272) -/

/-- The fixed inner padding of a voucher box, `mm_to_pt(6)` (line 201). -/
def voucher_padding : ℚ := mm_to_pt 6

/-- The fixed line height, `mm_to_pt(6)` (line 202). -/
def line_height : ℚ := mm_to_pt 6

/-- The internal table geometry computed by `draw_voucher`
(lines 204-235) from the voucher's bounding box. -/
structure TableGeometry where
  table_top : ℚ
  table_left : ℚ
  table_width : ℚ
  summary_width : ℚ
  account_width : ℚ
  amount_width : ℚ
  table_height : ℚ
  table_bottom : ℚ
  deriving DecidableEq, Repr

/-- The table geometry of `draw_voucher` for a box at `(x, y)` with the
given width and height: `title_y = y + height - padding`,
`info_y = title_y - line_height*2 - mm_to_pt(2)`,
`table_top = info_y - line_height*2`, widths `25%` / `38%` / the rest
split evenly, `table_height = line_height*4 + mm_to_pt(4)`. -/
def table_geometry (x y width height : ℚ) : TableGeometry :=
  let title_y := y + height - voucher_padding
  let info_y := title_y - line_height * 2 - mm_to_pt 2
  let table_top := info_y - line_height * 2
  let table_left := x + voucher_padding
  let table_width := width - 2 * voucher_padding
  let summary_width := table_width * (25 / 100)
  let account_width := table_width * (38 / 100)
  let amount_width := (table_width - summary_width - account_width) / 2
  let table_height := line_height * 4 + mm_to_pt 4
  ⟨table_top, table_left, table_width, summary_width, account_width, amount_width,
   table_height, table_top - table_height⟩

/-- The `i`-th interior row separator drawn at line 239
(`table_top - i * line_height`, for `i = 1, 2, 3`). -/
def row_separator_y (g : TableGeometry) (i : Nat) : ℚ :=
  g.table_top - (i : ℚ) * line_height

/-- The `j`-th interior column separator drawn at lines 233-235
(`j = 1, 2, 3`): `table_left` plus the widths of the columns to its
left. -/
def col_separator_x (g : TableGeometry) (j : Nat) : ℚ :=
  match j with
  | 1 => g.table_left + g.summary_width
  | 2 => g.table_left + g.summary_width + g.account_width
  | _ => g.table_left + g.summary_width + g.account_width + g.amount_width

/-- The height of table row `i` (0 = header, 1 = debit entry,
2 = credit entry, 3 = total): the vertical distance between consecutive
horizontal boundaries (table top, the three separators, table
bottom). -/
def row_height (g : TableGeometry) : Nat → ℚ
  | 0 => g.table_top - row_separator_y g 1
  | 1 => row_separator_y g 1 - row_separator_y g 2
  | 2 => row_separator_y g 2 - row_separator_y g 3
  | _ => row_separator_y g 3 - g.table_bottom

/-! ### Specification-side restatements of the classifier

Two readings of the rule-matching contract, used to compare
`map_entry_to_accounts` against the spec's wording. -/

/-- The spec's literal match test: the rule's keyword is a (case-sensitive)
substring of the description.  A rule with no keyword field has no
keyword to test and never matches. -/
def keyword_is_substring (summary : String) (rule : MappingRule) : Bool :=
  match rule.keyword with
  | some k => str_contains summary k
  | none => false

/-- Classification as the spec words it: the first rule, in list order,
whose keyword is a substring of the description wins; omitted account
sides fall back; no match returns the fallbacks. -/
def map_entry_claimed (summary : String) (rules : List MappingRule)
    (fallback_debit fallback_credit : String) : String × String :=
  match rules.find? (keyword_is_substring summary) with
  | some rule => (rule.debit_account.getD fallback_debit,
                  rule.credit_account.getD fallback_credit)
  | none => (fallback_debit, fallback_credit)

/-- The amended match test: the keyword must be present, nonempty and a
substring of the description. -/
def keyword_matches (summary : String) (rule : MappingRule) : Bool :=
  match rule.keyword with
  | some k => k ≠ "" && str_contains summary k
  | none => false

/-- Classification restated as a first-match lookup with the amended
(nonempty-keyword) match test. -/
def map_entry_nonempty_match (summary : String) (rules : List MappingRule)
    (fallback_debit fallback_credit : String) : String × String :=
  match rules.find? (keyword_matches summary) with
  | some rule => (rule.debit_account.getD fallback_debit,
                  rule.credit_account.getD fallback_credit)
  | none => (fallback_debit, fallback_credit)

/-! ## Helper lemmas -/

theorem emitted_rows_cons (row : Row) (rest : List Row) :
    emitted_rows (row :: rest)
      = if selected_amount row = 0 then emitted_rows rest else row :: emitted_rows rest := by
  by_cases h : selected_amount row = 0 <;> simp [emitted_rows, List.filter_cons, h]

theorem build_step_eq (m : List MappingRule) (s : Int) (fd fc : String)
    (acc : List Voucher) (row : Row) :
    build_step m s fd fc acc row
      = if selected_amount row = 0 then acc
        else acc ++ [mk_voucher m s fd fc row acc.length] := by
  simp only [build_step, mk_voucher, selected_amount]

theorem foldl_build_step (m : List MappingRule) (s : Int) (fd fc : String) (df : List Row) :
    ∀ acc : List Voucher,
      df.foldl (build_step m s fd fc) acc
        = acc ++ build_vouchers_from m s fd fc df acc.length := by
  induction df with
  | nil => intro acc; simp [build_vouchers_from]
  | cons row rest ih =>
    intro acc
    rw [List.foldl_cons, build_step_eq]
    by_cases h : selected_amount row = 0
    · rw [if_pos h, ih acc]
      simp [build_vouchers_from, h]
    · rw [if_neg h, ih (acc ++ [mk_voucher m s fd fc row acc.length])]
      simp [build_vouchers_from, h]

theorem build_vouchers_eq (df : List Row) (m : List MappingRule) (s : Int) (fd fc : String) :
    build_vouchers df m s fd fc = build_vouchers_from m s fd fc df 0 := by
  rw [build_vouchers, foldl_build_step]
  rfl

theorem build_from_length (m : List MappingRule) (s : Int) (fd fc : String) (df : List Row) :
    ∀ k, (build_vouchers_from m s fd fc df k).length = (emitted_rows df).length := by
  induction df with
  | nil => intro k; simp [build_vouchers_from, emitted_rows]
  | cons row rest ih =>
    intro k
    by_cases h : selected_amount row = 0 <;>
      simp [build_vouchers_from, emitted_rows_cons, h, ih]

theorem build_from_get? (m : List MappingRule) (s : Int) (fd fc : String) (df : List Row) :
    ∀ k i, (build_vouchers_from m s fd fc df k).get? i
      = ((emitted_rows df).get? i).map (fun row => mk_voucher m s fd fc row (k + i)) := by
  induction df with
  | nil => intro k i; simp [build_vouchers_from, emitted_rows]
  | cons row rest ih =>
    intro k i
    by_cases h : selected_amount row = 0
    · simp only [build_vouchers_from, if_pos h, emitted_rows_cons]
      exact ih k i
    · simp only [build_vouchers_from, if_neg h, emitted_rows_cons]
      cases i with
      | zero => simp
      | succ j =>
        simp only [List.get?_cons_succ]
        rw [ih (k + 1) j]
        simp only [show k + 1 + j = k + (j + 1) from by omega]

theorem emitted_rows_length_le (df : List Row) :
    (emitted_rows df).length ≤ df.length :=
  List.length_filter_le _ _

theorem emitted_rows_selected_ne (df : List Row) (row : Row) (h : row ∈ emitted_rows df) :
    selected_amount row ≠ 0 := by
  have := List.of_mem_filter h
  simpa using this

/-! ## Claim theorems -/

/-- C1: for every normalized row table and starting base number, the
vouchers emitted by `build_vouchers` are numbered consecutively: at
most one voucher per input row, the `i`-th emitted voucher carries the
zero-padded rendering of `start_number + i` (so the numbers start at
the configured base and increase strictly by 1 with no gaps), and a row
skipped for zero amount consumes no number: prepending such a row
leaves the output, hence the numbering of all subsequent rows,
unchanged. -/
theorem build_vouchers_sequence_numbers (df : List Row) (m : List MappingRule)
    (s : Int) (fd fc : String) :
    (build_vouchers df m s fd fc).length ≤ df.length ∧
    (∀ i (h : i < (build_vouchers df m s fd fc).length),
      ((build_vouchers df m s fd fc).get ⟨i, h⟩).number = format03d (s + i)) ∧
    (∀ row : Row, row.debit = 0 → row.credit = 0 →
      build_vouchers (row :: df) m s fd fc = build_vouchers df m s fd fc) := by
  refine ⟨?_, ?_, ?_⟩
  · rw [build_vouchers_eq, build_from_length]
    exact emitted_rows_length_le df
  · intro i h
    have h1 := build_from_get? m s fd fc df 0 i
    rw [← build_vouchers_eq] at h1
    rw [List.get?_eq_get h] at h1
    have h2 : i < (emitted_rows df).length := by
      have := h
      rw [build_vouchers_eq, build_from_length] at this
      exact this
    rw [List.get?_eq_get h2] at h1
    simp only [Option.map_some'] at h1
    have h3 := Option.some.inj h1
    rw [h3]
    simp [mk_voucher]
  · intro row hd hc
    rw [build_vouchers_eq, build_vouchers_eq]
    have h : selected_amount row = 0 := by simp [selected_amount, hd, hc]
    simp [build_vouchers_from, h]

/-- Closed instance of `build_vouchers_sequence_numbers`: on a concrete
three-row table (with a zero row in the middle) started at base 1, the
second emitted voucher is numbered `002`. -/
theorem build_vouchers_sequence_numbers_witness :
    ((build_vouchers [⟨⟨2024, 1, 5⟩, "a", 0, 500⟩, ⟨⟨2024, 1, 6⟩, "b", 0, 0⟩,
        ⟨⟨2024, 1, 7⟩, "c", 7, 0⟩] [] 1 "FD" "FC").get ⟨1, by decide⟩).number
      = format03d (1 + 1) :=
  (build_vouchers_sequence_numbers
    [⟨⟨2024, 1, 5⟩, "a", 0, 500⟩, ⟨⟨2024, 1, 6⟩, "b", 0, 0⟩, ⟨⟨2024, 1, 7⟩, "c", 7, 0⟩]
    [] 1 "FD" "FC").2.1 1 (by decide)

/-- C2: `build_vouchers` selects the debit amount when it is nonzero and
the credit amount otherwise; a row with both amounts zero yields no
voucher; and every produced voucher's amount is strictly positive and
equals the absolute value of the selected source column (stated for the
voucher produced by the head row, which fixes the correspondence
between rows and vouchers, plus positivity for every voucher of any
table). -/
theorem build_vouchers_amount_selection (df : List Row) (m : List MappingRule)
    (s : Int) (fd fc : String) :
    (∀ v ∈ build_vouchers df m s fd fc, 0 < v.amount) ∧
    (∀ row : Row, row.debit = 0 → row.credit = 0 →
      build_vouchers [row] m s fd fc = []) ∧
    (∀ row : Row, ¬(row.debit = 0 ∧ row.credit = 0) →
      ∃ v, (build_vouchers (row :: df) m s fd fc).head? = some v ∧
        v.amount = |if row.debit ≠ 0 then row.debit else row.credit| ∧
        0 < v.amount) := by
  have hsel : ∀ row : Row,
      (if row.debit ≠ 0 then row.debit else row.credit) = selected_amount row := by
    intro row
    by_cases h : row.debit = 0 <;> simp [selected_amount, h]
  refine ⟨?_, ?_, ?_⟩
  · intro v hv
    rw [build_vouchers_eq] at hv
    obtain ⟨i, hi⟩ := List.get?_of_mem hv
    rw [build_from_get? m s fd fc df 0 i] at hi
    match hrow : (emitted_rows df).get? i with
    | none => rw [hrow] at hi; simp at hi
    | some row =>
      rw [hrow] at hi
      simp only [Option.map_some'] at hi
      have hmem : row ∈ emitted_rows df := List.get?_mem hrow
      have hne : selected_amount row ≠ 0 := emitted_rows_selected_ne df row hmem
      have : v = mk_voucher m s fd fc row (0 + i) := (Option.some.inj hi).symm
      rw [this]
      simp only [mk_voucher]
      exact abs_pos.mpr hne
  · intro row hd hc
    rw [build_vouchers_eq]
    have h : selected_amount row = 0 := by simp [selected_amount, hd, hc]
    simp [build_vouchers_from, h]
  · intro row hrow
    have hne : selected_amount row ≠ 0 := by
      simp only [selected_amount]
      by_cases h : row.debit = 0
      · simp only [h, if_pos rfl]
        intro hc
        exact hrow ⟨h, hc⟩
      · simp [h]
    refine ⟨mk_voucher m s fd fc row 0, ?_, ?_, ?_⟩
    · rw [build_vouchers_eq]
      simp [build_vouchers_from, hne]
    · simp [mk_voucher, hsel row]
    · simp only [mk_voucher]
      exact abs_pos.mpr hne

/-- Closed instance of `build_vouchers_amount_selection`: a concrete row
with debit 0 and credit −500 produces the voucher amount `|−500| = 500`,
strictly positive. -/
theorem build_vouchers_amount_selection_witness :
    ∃ v, (build_vouchers [⟨⟨2024, 1, 5⟩, "a", 0, -500⟩] [] 1 "FD" "FC").head? = some v ∧
      v.amount = |if (0 : ℚ) ≠ 0 then (0 : ℚ) else (-500 : ℚ)| ∧ 0 < v.amount :=
  (build_vouchers_amount_selection [] [] 1 "FD" "FC").2.2
    ⟨⟨2024, 1, 5⟩, "a", 0, -500⟩ (by decide)

/-- C10: the voucher sequence produced by the pipeline is identical with
zero filtering enabled and disabled: `build_vouchers` independently
skips every row whose debit and credit are both zero, so `parse_csv`'s
zero filter changes only the intermediate table, never the emitted
vouchers or their numbering. -/
theorem pipeline_zero_filter_irrelevant (strptime : String → String → Option Date)
    (pd_to_datetime : String → Option Date) (parse_num : String → Option ℚ)
    (raw : List RawRow) (m : List MappingRule) (s : Int) (fd fc : String) :
    pipeline strptime pd_to_datetime parse_num raw true m s fd fc
      = pipeline strptime pd_to_datetime parse_num raw false m s fd fc := by
  have hfilter : ∀ df : List Row, filter_zero_rows df = emitted_rows df := by
    intro df
    apply List.filter_congr
    intro row _
    by_cases hd : row.debit = 0 <;> by_cases hc : row.credit = 0 <;>
      simp [selected_amount, hd, hc]
  have hbuild : ∀ df : List Row, ∀ k,
      build_vouchers_from m s fd fc (emitted_rows df) k
        = build_vouchers_from m s fd fc df k := by
    intro df
    induction df with
    | nil => intro k; simp [emitted_rows]
    | cons row rest ih =>
      intro k
      by_cases h : selected_amount row = 0
      · rw [emitted_rows_cons, if_pos h]
        simp [build_vouchers_from, h, ih]
      · rw [emitted_rows_cons, if_neg h]
        simp [build_vouchers_from, h, ih]
  unfold pipeline
  cases hnorm : normalize_rows strptime pd_to_datetime parse_num raw with
  | error e => rfl
  | ok df =>
    show Except.ok (build_vouchers (filter_zero_rows df) m s fd fc)
      = Except.ok (build_vouchers df m s fd fc)
    rw [hfilter df, build_vouchers_eq, build_vouchers_eq, hbuild df 0]

theorem map_entry_cons (summary : String) (rule : MappingRule) (rest : List MappingRule)
    (fd fc : String) :
    map_entry_to_accounts summary (rule :: rest) fd fc
      = if keyword_matches summary rule then
          (rule.debit_account.getD fd, rule.credit_account.getD fc)
        else map_entry_to_accounts summary rest fd fc := by
  cases rule with
  | mk kw da ca =>
    cases kw with
    | none => simp [map_entry_to_accounts, keyword_matches]
    | some k => simp [map_entry_to_accounts, keyword_matches]

/-- C3, counterexample: the claim reads `map_entry_to_accounts` as
returning the account pair of the first rule whose keyword is a
substring of the description.  For the rule list
`[{keyword: "", debit_account: "A", credit_account: "B"}]` and
description `"x"`, the empty keyword IS a substring of `"x"`, so that
reading returns `("A", "B")` — but the code's truthiness test
(`if keyword`) skips empty keywords and returns the fallbacks. -/
theorem map_entry_claimed_counterexample :
    str_contains "x" "" = true ∧
    map_entry_claimed "x" [⟨some "", some "A", some "B"⟩] "F1" "F2" = ("A", "B") ∧
    map_entry_to_accounts "x" [⟨some "", some "A", some "B"⟩] "F1" "F2" = ("F1", "F2") ∧
    map_entry_to_accounts "x" [⟨some "", some "A", some "B"⟩] "F1" "F2"
      ≠ map_entry_claimed "x" [⟨some "", some "A", some "B"⟩] "F1" "F2" := by
  refine ⟨rfl, rfl, rfl, ?_⟩
  decide

/-- C3, amended: `map_entry_to_accounts` returns the account pair of the
first rule (in list order) whose keyword is present, nonempty, and a
case-sensitive substring of the description, each omitted side replaced
by the corresponding fallback; when no rule matches — in particular for
the empty rule list — it returns the two fallbacks unchanged. -/
theorem map_entry_to_accounts_first_match (summary : String) (rules : List MappingRule)
    (fallback_debit fallback_credit : String) :
    map_entry_to_accounts summary rules fallback_debit fallback_credit
      = map_entry_nonempty_match summary rules fallback_debit fallback_credit := by
  induction rules with
  | nil => rfl
  | cons rule rest ih =>
    rw [map_entry_cons]
    by_cases hk : keyword_matches summary rule = true
    · simp [map_entry_nonempty_match, List.find?_cons, hk]
    · rw [Bool.not_eq_true] at hk
      simp only [map_entry_nonempty_match, List.find?_cons, hk, if_neg]
      rw [if_neg (by simp [hk])]
      exact ih

/-- C9: a mapping rule whose keyword is missing or empty never matches
any description: inserting it anywhere in the rule list leaves the
result of `map_entry_to_accounts` unchanged. -/
theorem empty_keyword_rule_is_noop (summary : String) (rules1 rules2 : List MappingRule)
    (rule : MappingRule) (fd fc : String)
    (h : rule.keyword = none ∨ rule.keyword = some "") :
    map_entry_to_accounts summary (rules1 ++ rule :: rules2) fd fc
      = map_entry_to_accounts summary (rules1 ++ rules2) fd fc := by
  have hnomatch : keyword_matches summary rule = false := by
    rcases h with h | h <;> simp [keyword_matches, h]
  induction rules1 with
  | nil =>
    rw [List.nil_append, List.nil_append, map_entry_cons, hnomatch, if_neg (by simp)]
  | cons r rs ih =>
    rw [List.cons_append, List.cons_append, map_entry_cons, map_entry_cons]
    by_cases hk : keyword_matches summary r = true
    · rw [if_pos (by simp [hk]), if_pos (by simp [hk])]
    · rw [Bool.not_eq_true] at hk
      rw [if_neg (by simp [hk]), if_neg (by simp [hk])]
      exact ih

/-- Closed instance of `empty_keyword_rule_is_noop`: inserting the
empty-keyword rule `{keyword: "", debit_account: "A", credit_account:
"B"}` in front of a matching rule changes nothing. -/
theorem empty_keyword_rule_is_noop_witness :
    map_entry_to_accounts "发放3月工资"
        ([] ++ ⟨some "", some "A", some "B"⟩ ::
          [⟨some "工资", some "管理费用-工资", some "银行存款"⟩]) "F1" "F2"
      = map_entry_to_accounts "发放3月工资"
          ([] ++ [⟨some "工资", some "管理费用-工资", some "银行存款"⟩]) "F1" "F2" :=
  empty_keyword_rule_is_noop "发放3月工资" []
    [⟨some "工资", some "管理费用-工资", some "银行存款"⟩]
    ⟨some "", some "A", some "B"⟩ "F1" "F2" (Or.inr rfl)

theorem except_bind_ok {α β ε : Type} (a : α) (f : α → Except ε β) :
    (Except.ok a >>= f) = f a := rfl

theorem except_bind_error {α β ε : Type} (e : ε) (f : α → Except ε β) :
    ((Except.error e : Except ε α) >>= f) = Except.error e := rfl

theorem normalize_row_ok (strptime : String → String → Option Date)
    (pd_to_datetime : String → Option Date) (parse_num : String → Option ℚ)
    (r : RawRow) (d : Date)
    (hd : parse_date strptime pd_to_datetime r.date = Except.ok d) :
    normalize_row strptime pd_to_datetime parse_num r
      = Except.ok ⟨d, r.summary.getD "", to_numeric_coerce parse_num r.debit,
                   to_numeric_coerce parse_num r.credit⟩ := by
  simp only [normalize_row, bind, hd]
  rfl

theorem normalize_rows_ok_of (strptime : String → String → Option Date)
    (pd_to_datetime : String → Option Date) (parse_num : String → Option ℚ)
    (rows : List RawRow)
    (h : ∀ r ∈ rows, ∃ d, parse_date strptime pd_to_datetime r.date = Except.ok d) :
    ∃ out, normalize_rows strptime pd_to_datetime parse_num rows = Except.ok out ∧
      out.length = rows.length ∧
      ∀ i (h1 : i < out.length) (h2 : i < rows.length),
        (out.get ⟨i, h1⟩).debit
            = to_numeric_coerce parse_num ((rows.get ⟨i, h2⟩).debit) ∧
        (out.get ⟨i, h1⟩).credit
            = to_numeric_coerce parse_num ((rows.get ⟨i, h2⟩).credit) := by
  induction rows with
  | nil =>
    refine ⟨[], rfl, rfl, ?_⟩
    intro i h1 h2
    exact absurd h1 (by simp)
  | cons r rest ih =>
    obtain ⟨d, hd⟩ := h r (List.mem_cons_self r rest)
    obtain ⟨out', hout', hlen', hget'⟩ := ih (fun x hx => h x (List.mem_cons_of_mem r hx))
    refine ⟨⟨d, r.summary.getD "", to_numeric_coerce parse_num r.debit,
            to_numeric_coerce parse_num r.credit⟩ :: out', ?_, by simp [hlen'], ?_⟩
    · have hout2 : List.mapM (normalize_row strptime pd_to_datetime parse_num) rest
          = Except.ok out' := hout'
      rw [normalize_rows, List.mapM_cons,
          normalize_row_ok strptime pd_to_datetime parse_num r d hd, hout2]
      rfl
    · intro i h1 h2
      cases i with
      | zero => exact ⟨rfl, rfl⟩
      | succ j =>
        have hj1 : j < out'.length := by simpa using h1
        have hj2 : j < rest.length := by simpa using h2
        simpa using hget' j hj1 hj2

theorem normalize_rows_error_of (strptime : String → String → Option Date)
    (pd_to_datetime : String → Option Date) (parse_num : String → Option ℚ)
    (rows : List RawRow)
    (h : ∃ r ∈ rows, ∀ d, parse_date strptime pd_to_datetime r.date ≠ Except.ok d) :
    ∃ e, normalize_rows strptime pd_to_datetime parse_num rows = Except.error e := by
  induction rows with
  | nil => obtain ⟨r, hr, _⟩ := h; exact absurd hr (by simp)
  | cons r rest ih =>
    cases hp : parse_date strptime pd_to_datetime r.date with
    | error e =>
      refine ⟨e, ?_⟩
      rw [normalize_rows, List.mapM_cons]
      rw [show normalize_row strptime pd_to_datetime parse_num r = Except.error e by
        simp only [normalize_row, bind, hp]; rfl]
      rfl
    | ok d =>
      obtain ⟨r', hr', hfail⟩ := h
      rcases List.mem_cons.mp hr' with rfl | hmem
      · exact absurd hp (hfail d)
      · obtain ⟨e, he⟩ := ih ⟨r', hmem, hfail⟩
        refine ⟨e, ?_⟩
        have he2 : List.mapM (normalize_row strptime pd_to_datetime parse_num) rest
            = Except.error e := he
        rw [normalize_rows, List.mapM_cons,
            normalize_row_ok strptime pd_to_datetime parse_num r d hp, except_bind_ok, he2]
        rfl

/-- C4: during normalization, a row whose date cell is empty/missing
raises the empty-date error, and a row whose date no parser accepts
makes the whole load fail (an `Except.error`, so no partial table is
ever produced); whereas when every date parses the load succeeds in
full for arbitrary amount cells — a debit or credit cell the numeric
parser rejects never aborts and shows up in the output coerced to
zero. -/
theorem normalize_date_fatal_amount_coerced (strptime : String → String → Option Date)
    (pd_to_datetime : String → Option Date) (parse_num : String → Option ℚ)
    (rows : List RawRow) :
    ((∀ r ∈ rows, ∃ d, parse_date strptime pd_to_datetime r.date = Except.ok d) →
      ∃ out, normalize_rows strptime pd_to_datetime parse_num rows = Except.ok out ∧
        out.length = rows.length ∧
        ∀ i (h1 : i < out.length) (h2 : i < rows.length),
          (out.get ⟨i, h1⟩).debit
              = to_numeric_coerce parse_num ((rows.get ⟨i, h2⟩).debit) ∧
          (out.get ⟨i, h1⟩).credit
              = to_numeric_coerce parse_num ((rows.get ⟨i, h2⟩).credit)) ∧
    ((∃ r ∈ rows, ∀ d, parse_date strptime pd_to_datetime r.date ≠ Except.ok d) →
      ∃ e, normalize_rows strptime pd_to_datetime parse_num rows = Except.error e) ∧
    (∀ r : RawRow, r.date = none →
      parse_date strptime pd_to_datetime r.date = Except.error "日期为空") ∧
    (∀ cell : String, parse_num cell = none →
      to_numeric_coerce parse_num (some cell) = 0) := by
  refine ⟨normalize_rows_ok_of strptime pd_to_datetime parse_num rows,
          normalize_rows_error_of strptime pd_to_datetime parse_num rows, ?_, ?_⟩
  · intro r hr
    rw [show r.date = none from hr]
    rfl
  · intro cell hcell
    simp [to_numeric_coerce, hcell]

/-- Closed instance of `normalize_date_fatal_amount_coerced`: with a
date parser that accepts everything and a numeric parser that rejects
everything, a one-row table with an unparseable debit cell loads
successfully (amounts coerced); with the same parsers, a one-row table
with a missing date cell fails as a whole. -/
theorem normalize_date_fatal_amount_coerced_witness :
    (∃ out, normalize_rows (fun _ _ => some ⟨2024, 1, 5⟩) (fun _ => none) (fun _ => none)
        [⟨some "2024/01/05", some "x", some "abc", none⟩] = Except.ok out ∧
      out.length = ([⟨some "2024/01/05", some "x", some "abc", none⟩] : List RawRow).length ∧
      ∀ i (h1 : i < out.length)
        (h2 : i < ([⟨some "2024/01/05", some "x", some "abc", none⟩] : List RawRow).length),
        (out.get ⟨i, h1⟩).debit = to_numeric_coerce (fun _ => none)
            ((([⟨some "2024/01/05", some "x", some "abc", none⟩] : List RawRow).get
              ⟨i, h2⟩).debit) ∧
        (out.get ⟨i, h1⟩).credit = to_numeric_coerce (fun _ => none)
            ((([⟨some "2024/01/05", some "x", some "abc", none⟩] : List RawRow).get
              ⟨i, h2⟩).credit)) ∧
    (∃ e, normalize_rows (fun _ _ => some ⟨2024, 1, 5⟩) (fun _ => none) (fun _ => none)
        [⟨none, some "x", some "1", some "2"⟩] = Except.error e) := by
  constructor
  · exact (normalize_date_fatal_amount_coerced (fun _ _ => some ⟨2024, 1, 5⟩)
      (fun _ => none) (fun _ => none)
      [⟨some "2024/01/05", some "x", some "abc", none⟩]).1
      (fun r hr => by
        rcases List.mem_singleton.mp hr with rfl
        exact ⟨⟨2024, 1, 5⟩, rfl⟩)
  · exact (normalize_date_fatal_amount_coerced (fun _ _ => some ⟨2024, 1, 5⟩)
      (fun _ => none) (fun _ => none) [⟨none, some "x", some "1", some "2"⟩]).2.1
      ⟨⟨none, some "x", some "1", some "2"⟩, List.mem_singleton.mpr rfl,
        fun d hcontra => Except.noConfusion hcontra⟩

theorem succ_div_of_mod_eq (vpp idx : Nat) (h : (idx + 1) % vpp = 0) :
    (idx + 1) / vpp = idx / vpp + 1 := by
  rw [Nat.succ_div]
  simp [Nat.dvd_of_mod_eq_zero h]

theorem succ_mod_div_of_mod_ne (vpp idx : Nat) (hv : 0 < vpp)
    (h : (idx + 1) % vpp ≠ 0) :
    (idx + 1) % vpp = idx % vpp + 1 ∧ (idx + 1) / vpp = idx / vpp := by
  have hlt : idx % vpp < vpp := Nat.mod_lt _ hv
  have key : (idx + 1) % vpp = (idx % vpp + 1) % vpp := by
    conv_lhs => rw [← Nat.div_add_mod idx vpp]
    rw [Nat.add_assoc, Nat.mul_add_mod]
  constructor
  · by_cases hcase : idx % vpp + 1 = vpp
    · rw [key, hcase, Nat.mod_self] at h
      exact absurd rfl h
    · have hlt2 : idx % vpp + 1 < vpp := lt_of_le_of_ne hlt hcase
      rw [key, Nat.mod_eq_of_lt hlt2]
  · rw [Nat.succ_div]
    have hnd : ¬ vpp ∣ idx + 1 := fun hd => h (Nat.eq_zero_of_dvd_of_lt hd |> fun _ => by
      simpa using Nat.mod_eq_zero_of_dvd hd)
    simp [hnd]

theorem render_go_eq (n vpp : Nat) (x w hgt spacing top : ℚ) (hv : 0 < vpp) :
    ∀ rem : Nat, ∀ (idx page : Nat) (y : ℚ),
      idx + rem ≤ n →
      page = idx / vpp →
      y = top - ((idx % vpp : Nat) : ℚ) * (hgt + spacing) →
      render_go n vpp x w hgt spacing top rem idx page y
        = (List.range rem).map (fun j =>
            ⟨(idx + j) / vpp, x,
             top - (((idx + j) % vpp : Nat) : ℚ) * (hgt + spacing), w, hgt⟩) := by
  intro rem
  induction rem with
  | zero => intro idx page y _ _ _; simp [render_go]
  | succ rem ih =>
    intro idx page y hle hpage hy
    rw [List.range_succ_eq_map, List.map_cons, List.map_map]
    simp only [render_go]
    congr 1
    · rw [hpage, hy]
      simp
    · by_cases hbr : (idx + 1) % vpp = 0 ∧ idx + 1 ≠ n
      · rw [if_pos hbr]
        rw [ih (idx + 1) (page + 1) top (by omega)
            (by rw [hpage, succ_div_of_mod_eq vpp idx hbr.1])
            (by rw [hbr.1]; simp)]
        apply List.map_congr_left
        intro j _
        simp only [Function.comp_apply]
        have hj : idx + 1 + j = idx + (j + 1) := by omega
        rw [hj]
      · rw [if_neg hbr]
        by_cases hmod : (idx + 1) % vpp = 0
        · have hn : idx + 1 = n := by
            by_contra hne
            exact hbr ⟨hmod, hne⟩
          have hrem : rem = 0 := by omega
          subst hrem
          simp [render_go]
        · obtain ⟨hm, hdiv⟩ := succ_mod_div_of_mod_ne vpp idx hv hmod
          rw [ih (idx + 1) page (y - (hgt + spacing)) (by omega) (by rw [hpage, hdiv])
              (by rw [hy, hm]; push_cast; ring)]
          apply List.map_congr_left
          intro j _
          simp only [Function.comp_apply]
          have hj : idx + 1 + j = idx + (j + 1) := by omega
          rw [hj]

theorem render_layout_eq_map (n vpp : Nat) (page_width page_height margin spacing : ℚ)
    (hv : 0 < vpp) :
    render_layout n vpp page_width page_height margin spacing
      = (List.range n).map (fun j =>
          ⟨j / vpp, margin,
           page_height - margin - voucher_height page_height margin spacing vpp
             - ((j % vpp : Nat) : ℚ)
               * (voucher_height page_height margin spacing vpp + spacing),
           voucher_width page_width margin,
           voucher_height page_height margin spacing vpp⟩) := by
  have h0 := render_go_eq n vpp margin (voucher_width page_width margin)
    (voucher_height page_height margin spacing vpp) spacing
    (page_height - margin - voucher_height page_height margin spacing vpp) hv
    n 0 0 (page_height - margin - voucher_height page_height margin spacing vpp)
    (by omega) (by simp) (by simp)
  rw [render_layout]
  rw [h0]
  simp

/-- C5: in multi-per-page rendering every voucher box has height
`(page_height − 2·margin − spacing·(vouchers_per_page−1)) / vouchers_per_page`
and width `page_width − 2·margin`, placed at `x = margin`; voucher `i`
(0-based, input order) lands on page `i / vouchers_per_page`, the
`i % vouchers_per_page`-th box from the top of its page (each one
`height + spacing` lower), so the cursor resets to the top exactly
after every `vouchers_per_page`-th voucher that is not the last one
overall. -/
theorem render_layout_boxes (n vpp : Nat) (page_width page_height margin spacing : ℚ)
    (hv : 0 < vpp) :
    (render_layout n vpp page_width page_height margin spacing).length = n ∧
    ∀ i (h : i < (render_layout n vpp page_width page_height margin spacing).length),
      (render_layout n vpp page_width page_height margin spacing).get ⟨i, h⟩
        = { page := i / vpp,
            x := margin,
            y := page_height - margin
                 - (page_height - 2 * margin - spacing * ((vpp : ℚ) - 1)) / (vpp : ℚ)
                 - ((i % vpp : Nat) : ℚ)
                   * ((page_height - 2 * margin - spacing * ((vpp : ℚ) - 1)) / (vpp : ℚ)
                      + spacing),
            width := page_width - 2 * margin,
            height := (page_height - 2 * margin - spacing * ((vpp : ℚ) - 1)) / (vpp : ℚ) } := by
  have hmap := render_layout_eq_map n vpp page_width page_height margin spacing hv
  constructor
  · rw [hmap]
    simp
  · intro i h
    have h2 : i < n := by
      rw [hmap] at h
      simpa using h
    have hq := List.get?_eq_get h
    conv at hq => lhs; rw [hmap]
    rw [List.get?_eq_getElem?] at hq
    rw [List.getElem?_map, List.getElem?_range h2] at hq
    simp only [Option.map_some'] at hq
    have := Option.some.inj hq
    rw [← this]
    simp [voucher_height, voucher_width]

/-- Closed instance of `render_layout_boxes`: with `vouchers_per_page=3`,
12 mm margin and 6 mm spacing on A4, vouchers 0, 1, 2 land on page 0
and voucher 3 on page 1 — exactly 3 vouchers occupy the first page
before the break preceding the 4th. -/
theorem render_layout_boxes_witness :
    ((render_layout 4 3 A4_width A4_height (mm_to_pt 12) (mm_to_pt 6)).get
        ⟨0, by decide⟩).page = 0 ∧
    ((render_layout 4 3 A4_width A4_height (mm_to_pt 12) (mm_to_pt 6)).get
        ⟨1, by decide⟩).page = 0 ∧
    ((render_layout 4 3 A4_width A4_height (mm_to_pt 12) (mm_to_pt 6)).get
        ⟨2, by decide⟩).page = 0 ∧
    ((render_layout 4 3 A4_width A4_height (mm_to_pt 12) (mm_to_pt 6)).get
        ⟨3, by decide⟩).page = 1 := by
  have h := (render_layout_boxes 4 3 A4_width A4_height (mm_to_pt 12) (mm_to_pt 6)
    (by decide)).2
  refine ⟨?_, ?_, ?_, ?_⟩
  · rw [h 0 (by decide)]
  · rw [h 1 (by decide)]
  · rw [h 2 (by decide)]
  · rw [h 3 (by decide)]

/-- C6, counterexample: `render_vouchers_to_pdf` contains no validation
of `vouchers_per_page` or of the computed voucher height.  On A4 with
the default 12 mm margin and 6 mm spacing, `vouchers_per_page = 47`
makes the computed voucher height negative, yet the render still issues
a `draw_voucher` call (here: a nonempty placement list) instead of
reporting a configuration error before drawing. -/
theorem render_layout_degenerate_draws_counterexample :
    voucher_height A4_height (mm_to_pt 12) (mm_to_pt 6) 47 < 0 ∧
    render_layout 1 47 A4_width A4_height (mm_to_pt 12) (mm_to_pt 6) ≠ [] := by
  constructor
  · simp only [voucher_height, A4_height, mm_to_pt]
    norm_num
  · simp [render_layout, render_go]

/-- C6, amended: no configuration check exists.  For every positive
`vouchers_per_page` whose computed voucher height is non-positive, the
layout silently draws all `n` vouchers with that degenerate height
rather than reporting an error. -/
theorem render_layout_ignores_degenerate_height (n vpp : Nat)
    (page_width page_height margin spacing : ℚ) (hv : 0 < vpp)
    (hdeg : voucher_height page_height margin spacing vpp ≤ 0) :
    (render_layout n vpp page_width page_height margin spacing).length = n ∧
    ∀ p ∈ render_layout n vpp page_width page_height margin spacing,
      p.height = voucher_height page_height margin spacing vpp ∧ p.height ≤ 0 := by
  have hmap := render_layout_eq_map n vpp page_width page_height margin spacing hv
  constructor
  · rw [hmap]
    simp
  · intro p hp
    rw [hmap] at hp
    obtain ⟨j, _, rfl⟩ := List.mem_map.mp hp
    exact ⟨rfl, hdeg⟩

/-- Closed instance of `render_layout_ignores_degenerate_height` at
`vouchers_per_page = 47` on A4 with the default margins. -/
theorem render_layout_ignores_degenerate_height_witness :
    (render_layout 1 47 A4_width A4_height (mm_to_pt 12) (mm_to_pt 6)).length = 1 ∧
    ∀ p ∈ render_layout 1 47 A4_width A4_height (mm_to_pt 12) (mm_to_pt 6),
      p.height = voucher_height A4_height (mm_to_pt 12) (mm_to_pt 6) 47 ∧ p.height ≤ 0 :=
  render_layout_ignores_degenerate_height 1 47 A4_width A4_height (mm_to_pt 12)
    (mm_to_pt 6) (by decide)
    (by simp only [voucher_height, A4_height, mm_to_pt]; norm_num)

theorem isSome_of_isNone_false {α : Type} {o : Option α} (h : o.isNone = false) :
    o.isSome = true := by
  cases o with
  | none => exact absurd h (by simp)
  | some v => rfl

theorem isSome_false_of_isNone {α : Type} {o : Option α} (h : o.isNone = true) :
    o.isSome = false := by
  cases o with
  | none => rfl
  | some v => exact absurd h (by simp)

theorem find_column_first (headers : List String) :
    ∀ (names : List String) (a : String), find_column headers names = some a →
      a ∈ names ∧ headers.contains a = true ∧
      ∃ pre post, names = pre ++ a :: post ∧
        ∀ b ∈ pre, headers.contains b = false := by
  intro names
  induction names with
  | nil => intro a h; simp [find_column] at h
  | cons nm rest ih =>
    intro a h
    by_cases hnm : headers.contains nm = true
    · have hval : find_column headers (nm :: rest) = some nm := by
        simp only [find_column, List.find?_cons, hnm]
      rw [hval] at h
      have ha : nm = a := Option.some.inj h
      subst ha
      exact ⟨List.mem_cons_self nm rest, hnm, [], rest, rfl, by simp⟩
    · rw [Bool.not_eq_true] at hnm
      have hstep : find_column headers (nm :: rest) = find_column headers rest := by
        simp only [find_column, List.find?_cons, hnm]
      rw [hstep] at h
      obtain ⟨hmem, hcont, pre, post, heq, hpre⟩ := ih a h
      refine ⟨List.mem_cons_of_mem nm hmem, hcont, nm :: pre, post, by rw [heq]; rfl, ?_⟩
      intro b hb
      rcases List.mem_cons.mp hb with rfl | hb'
      · exact hnm
      · exact hpre b hb'

/-- C7, counterexample: the claim says the missing-column error "names
which logical fields are missing".  The code raises the one fixed
message for every failure: a header missing only the date column and a
header missing only the description column — different sets of missing
logical fields — produce the identical error text, so the message does
not name the missing fields. -/
theorem resolve_columns_fixed_message_counterexample :
    resolve_columns ["摘要", "收入"] = Except.error missing_columns_message ∧
    resolve_columns ["交易日期", "收入"] = Except.error missing_columns_message ∧
    find_column ["摘要", "收入"] aliases_date = none ∧
    find_column ["摘要", "收入"] aliases_summary = some "摘要" ∧
    find_column ["交易日期", "收入"] aliases_date = some "交易日期" ∧
    find_column ["交易日期", "收入"] aliases_summary = none := by
  refine ⟨rfl, rfl, rfl, rfl, rfl, rfl⟩

/-- C7, amended: column resolution binds each of the four logical fields
to the first matching alias in declared priority order, and loading
fails if and only if date is unresolved, or description is unresolved,
or neither debit nor credit resolves; the failure carries the single
fixed message listing all required columns
(`CSV 缺少必要的列：日期/摘要/借方或贷方金额`) regardless of which
fields are missing. -/
theorem resolve_columns_spec (raw_headers : List String) :
    ((∃ cols, resolve_columns raw_headers = Except.ok cols) ↔
      ((find_column (raw_headers.map py_strip) aliases_date).isSome ∧
       (find_column (raw_headers.map py_strip) aliases_summary).isSome ∧
       ((find_column (raw_headers.map py_strip) aliases_debit).isSome ∨
        (find_column (raw_headers.map py_strip) aliases_credit).isSome))) ∧
    (∀ e, resolve_columns raw_headers = Except.error e → e = missing_columns_message) ∧
    (∀ cols, resolve_columns raw_headers = Except.ok cols →
      cols.date_col = find_column (raw_headers.map py_strip) aliases_date ∧
      cols.summary_col = find_column (raw_headers.map py_strip) aliases_summary ∧
      cols.debit_col = find_column (raw_headers.map py_strip) aliases_debit ∧
      cols.credit_col = find_column (raw_headers.map py_strip) aliases_credit) ∧
    (∀ (names : List String) (a : String),
      find_column (raw_headers.map py_strip) names = some a →
      a ∈ names ∧ (raw_headers.map py_strip).contains a = true ∧
      ∃ pre post, names = pre ++ a :: post ∧
        ∀ b ∈ pre, (raw_headers.map py_strip).contains b = false) := by
  have hunfold : resolve_columns raw_headers
      = if (find_column (raw_headers.map py_strip) aliases_date).isNone
           || (find_column (raw_headers.map py_strip) aliases_summary).isNone
           || ((find_column (raw_headers.map py_strip) aliases_debit).isNone
               && (find_column (raw_headers.map py_strip) aliases_credit).isNone) then
          Except.error missing_columns_message
        else
          Except.ok ⟨find_column (raw_headers.map py_strip) aliases_date,
                     find_column (raw_headers.map py_strip) aliases_summary,
                     find_column (raw_headers.map py_strip) aliases_debit,
                     find_column (raw_headers.map py_strip) aliases_credit⟩ := rfl
  by_cases hc : ((find_column (raw_headers.map py_strip) aliases_date).isNone
      || (find_column (raw_headers.map py_strip) aliases_summary).isNone
      || ((find_column (raw_headers.map py_strip) aliases_debit).isNone
          && (find_column (raw_headers.map py_strip) aliases_credit).isNone)) = true
  · rw [hc, if_pos rfl] at hunfold
    refine ⟨?_, ?_, ?_, find_column_first (raw_headers.map py_strip)⟩
    · constructor
      · intro ⟨cols, hcols⟩
        rw [hunfold] at hcols
        exact Except.noConfusion hcols
      · intro ⟨h1, h2, h3⟩
        exfalso
        simp only [Bool.or_eq_true, Bool.and_eq_true] at hc
        rcases hc with (hd | hs) | ⟨hdb, hcr⟩
        · rw [isSome_false_of_isNone hd] at h1
          exact Bool.noConfusion h1
        · rw [isSome_false_of_isNone hs] at h2
          exact Bool.noConfusion h2
        · rcases h3 with h3 | h3
          · rw [isSome_false_of_isNone hdb] at h3
            exact Bool.noConfusion h3
          · rw [isSome_false_of_isNone hcr] at h3
            exact Bool.noConfusion h3
    · intro e he
      rw [hunfold] at he
      exact (Except.error.inj he).symm
    · intro cols hcols
      rw [hunfold] at hcols
      exact Except.noConfusion hcols
  · rw [Bool.not_eq_true] at hc
    rw [hc, if_neg (by simp)] at hunfold
    refine ⟨?_, ?_, ?_, find_column_first (raw_headers.map py_strip)⟩
    · constructor
      · intro _
        simp only [Bool.or_eq_false_iff, Bool.and_eq_false_iff] at hc
        obtain ⟨⟨hd, hs⟩, hdc⟩ := hc
        refine ⟨isSome_of_isNone_false hd, isSome_of_isNone_false hs, ?_⟩
        rcases hdc with hdb | hcr
        · exact Or.inl (isSome_of_isNone_false hdb)
        · exact Or.inr (isSome_of_isNone_false hcr)
      · intro _
        exact ⟨_, hunfold⟩
    · intro e he
      rw [hunfold] at he
      exact Except.noConfusion he
    · intro cols hcols
      rw [hunfold] at hcols
      obtain rfl := Except.ok.inj hcols
      exact ⟨rfl, rfl, rfl, rfl⟩

/-- Closed instance of `resolve_columns_spec`: the header
`["交易日期", " 附言 ", "收入"]` (secondary aliases, one padded with
whitespace) resolves successfully, and its bindings are the first
matching aliases. -/
theorem resolve_columns_spec_witness :
    (∃ cols, resolve_columns ["交易日期", " 附言 ", "收入"] = Except.ok cols) ∧
    (⟨some "交易日期", some "附言", some "收入", none⟩ : ResolvedColumns).date_col
      = find_column (["交易日期", " 附言 ", "收入"].map py_strip) aliases_date := by
  constructor
  · exact (resolve_columns_spec ["交易日期", " 附言 ", "收入"]).1.mpr
      ⟨by decide, by decide, Or.inl (by decide)⟩
  · exact ((resolve_columns_spec ["交易日期", " 附言 ", "收入"]).2.2.1
      ⟨some "交易日期", some "附言", some "收入", none⟩ rfl).1

/-- C8, counterexample: the voucher table's four rows do NOT all have
equal height.  The three interior separators sit at
`table_top − i·line_height` but the table box is
`4·line_height + mm_to_pt(4)` tall, so on a concrete bounding box the
total row is strictly taller than the header row. -/
theorem table_equal_rows_counterexample :
    row_height (table_geometry 0 0 (mm_to_pt 170) (mm_to_pt 90)) 3
      ≠ row_height (table_geometry 0 0 (mm_to_pt 170) (mm_to_pt 90)) 0 := by
  simp only [table_geometry, row_height, row_separator_y, line_height, voucher_padding,
    mm_to_pt]
  norm_num

/-- C8, amended: for every bounding box the voucher table consists of
exactly 4 rows — header, debit entry, credit entry, total — the first
three of equal height `line_height` while the total row is taller by
`mm_to_pt 4`; the row boundaries span exactly the table box, the row
separators are derived purely from the row height
(`table_top − i·line_height`), and the column separators purely from
the cumulative column widths, which fill the table width exactly. -/
theorem table_geometry_rows_and_separators (x y width height : ℚ) :
    row_height (table_geometry x y width height) 0 = line_height ∧
    row_height (table_geometry x y width height) 1 = line_height ∧
    row_height (table_geometry x y width height) 2 = line_height ∧
    row_height (table_geometry x y width height) 3 = line_height + mm_to_pt 4 ∧
    (table_geometry x y width height).table_top
        - (table_geometry x y width height).table_bottom
      = (table_geometry x y width height).table_height ∧
    (table_geometry x y width height).table_height = line_height * 4 + mm_to_pt 4 ∧
    (∀ i : Nat, row_separator_y (table_geometry x y width height) i
      = (table_geometry x y width height).table_top - (i : ℚ) * line_height) ∧
    col_separator_x (table_geometry x y width height) 1
        - (table_geometry x y width height).table_left
      = (table_geometry x y width height).summary_width ∧
    col_separator_x (table_geometry x y width height) 2
        - col_separator_x (table_geometry x y width height) 1
      = (table_geometry x y width height).account_width ∧
    col_separator_x (table_geometry x y width height) 3
        - col_separator_x (table_geometry x y width height) 2
      = (table_geometry x y width height).amount_width ∧
    (table_geometry x y width height).table_left
        + (table_geometry x y width height).table_width
        - col_separator_x (table_geometry x y width height) 3
      = (table_geometry x y width height).amount_width := by
  refine ⟨?_, ?_, ?_, ?_, ?_, ?_, fun i => rfl, ?_, ?_, ?_, ?_⟩ <;>
    simp only [table_geometry, row_height, row_separator_y, col_separator_x] <;> ring

end BankVoucher
